import Mathlib

/-!
Shallow embedding of the Module.Xml parsing engine (src/Xml) and proofs of
the specification claims. Character streams are modelled as `List Char`
(head = next character to read); `IStream::get` consumes the head,
`IStream::peek` inspects it, `IStream::putback` pushes a character onto the
front. Fallible operations return `Except String`.
-/

namespace Xml

/-- The double-quote character. -/
def quot2 : Char := Char.ofNat 34

/-- The apostrophe character. -/
def quot1 : Char := Char.ofNat 39

/-- Candidate characters per position, from the `Chars[]` table in
SpecialChar.cpp: position 0 draws from "lgaq", 1 from "tmup", 2 from ";po",
3 from ";ts", 4 from ";". -/
def entityChars : List (List Char) :=
  [['l', 'g', 'a', 'q'], ['t', 'm', 'u', 'p'], [';', 'p', 'o'], [';', 't', 's'], [';']]

/-- `contains` from SpecialChar.cpp: linear scan of a candidate set. -/
def containsChar (ch : Char) (code : List Char) : Bool :=
  code.any fun c => c == ch

/-- The five recognized escape sequences with their decoded characters
(`lt;` `gt;` `amp;` `quot;` `apos;`). -/
def entitySeqs : List (List Char × Char) :=
  [(['l', 't', ';'], '<'),
   (['g', 't', ';'], '>'),
   (['a', 'm', 'p', ';'], '&'),
   (['q', 'u', 'o', 't', ';'], quot2),
   (['a', 'p', 'o', 's', ';'], quot1)]

/-- Comparing the accumulated buffer `tested` against the five precomputed
`ComputedLookup` unions in SpecialChar.cpp. The 8-byte buffers are
zero-padded past the consumed characters, so `tested.index == Lt.index`
holds exactly when the consumed characters are `lt;` and likewise for the
other four sequences. -/
def entityDecode (buf : List Char) : Option Char :=
  if buf = ['l', 't', ';'] then some '<'
  else if buf = ['g', 't', ';'] then some '>'
  else if buf = ['q', 'u', 'o', 't', ';'] then some quot2
  else if buf = ['a', 'p', 'o', 's', ';'] then some quot1
  else if buf = ['a', 'm', 'p', ';'] then some '&'
  else none

/-- The position loop of `SpecialChar::check`: walk the candidate-set table,
peeking one character per position; consume it while it belongs to the
current candidate set, testing the buffer against the five sequences after
each consumption.  On abandonment every consumed character is pushed back in
reverse order, which restores the stream to `consumed ++ s`. -/
def checkAux : List (List Char) → List Char → List Char → Char × List Char
  | [], consumed, s => ('&', consumed ++ s)
  | set :: sets, consumed, s =>
    match s with
    | [] => ('&', consumed)
    | c :: rest =>
      if containsChar c set then
        match entityDecode (consumed ++ [c]) with
        | some d => (d, rest)
        | none => checkAux sets (consumed ++ [c]) rest
      else ('&', consumed ++ (c :: rest))

/-- Shallow embedding of `SpecialChar::check` (SpecialChar.cpp): for the
character `in` just consumed and the remaining stream, return the decoded
character together with the stream left behind. Characters other than `&`
are returned unchanged. -/
def check (ch : Char) (s : List Char) : Char × List Char :=
  if ch = '&' then checkAux entityChars [] s else (ch, s)

/-- Driver that decodes a whole character stream by feeding each consumed
character through `check`, mirroring how a scanner would invoke the decoder
on every character it reads. Structured with fuel equal to the stream length
so that it is a structural recursion (each step consumes at least one
character). -/
def decodeStreamFuel : Nat → List Char → List Char
  | 0, _ => []
  | _, [] => []
  | n + 1, c :: rest =>
    let r := check c rest
    r.1 :: decodeStreamFuel n r.2

/-- Decode an entire character stream with the entity decoder. -/
def decodeStream (s : List Char) : List Char :=
  decodeStreamFuel s.length s

theorem entityDecode_mem (buf : List Char) (d : Char)
    (h : entityDecode buf = some d) : (buf, d) ∈ entitySeqs := by
  unfold entityDecode at h
  split_ifs at h with h1 h2 h3 h4 h5 <;> simp_all [entitySeqs] <;>
    exact h.symm

theorem checkAux_no_match (sets : List (List Char)) (consumed s : List Char)
    (h : ∀ p ∈ entitySeqs, ∀ suffix, consumed ++ suffix = p.1 →
      suffix.isPrefixOf s = false) :
    checkAux sets consumed s = ('&', consumed ++ s) := by
  induction sets generalizing consumed s with
  | nil => simp [checkAux]
  | cons set sets ih =>
    cases s with
    | nil => simp [checkAux]
    | cons c rest =>
      simp only [checkAux]
      by_cases hc : containsChar c set = true
      · simp only [hc, if_true]
        have hdec : entityDecode (consumed ++ [c]) = none := by
          cases hdc : entityDecode (consumed ++ [c]) with
          | none => rfl
          | some d =>
            exfalso
            have hmem := entityDecode_mem (consumed ++ [c]) d hdc
            have := h (consumed ++ [c], d) hmem [c] rfl
            simp [List.isPrefixOf] at this
        rw [hdec]
        have := ih (consumed ++ [c]) rest (by
          intro p hp suffix hsuffix
          have := h p hp (c :: suffix) (by simpa using hsuffix)
          simpa [List.isPrefixOf] using this)
        rw [this]
        simp
      · simp [hc]

theorem check_no_prefix (s : List Char)
    (h : ∀ p ∈ entitySeqs, p.1.isPrefixOf s = false) :
    check '&' s = ('&', s) := by
  unfold check
  rw [if_pos rfl]
  have := checkAux_no_match entityChars [] s (by
    intro p hp suffix hsuffix
    simp only [List.nil_append] at hsuffix
    subst hsuffix
    exact h p hp)
  simpa using this

/-- C1. The entity decoder `SpecialChar::check`, invoked after consuming
`&`, returns the literal character for exactly the five sequences
`lt; gt; amp; quot; apos;` (consuming the sequence from the stream); when
no sequence matches, every consumed character is pushed back in reverse
order and `&` itself is returned with the stream identical to what it was
before the attempt.  Consequently decoding the stream
`&lt;&gt;&amp;&quot;&apos;` yields the five literal characters
`< > & " '` exactly. -/
theorem c1_entity_decoder (s rest : List Char) :
    (∀ p ∈ entitySeqs, check '&' (p.1 ++ rest) = (p.2, rest)) ∧
    ((∀ p ∈ entitySeqs, p.1.isPrefixOf s = false) → check '&' s = ('&', s)) ∧
    decodeStream
        ('&' :: 'l' :: 't' :: ';' :: '&' :: 'g' :: 't' :: ';' ::
         '&' :: 'a' :: 'm' :: 'p' :: ';' :: '&' :: 'q' :: 'u' :: 'o' :: 't' :: ';' ::
         '&' :: 'a' :: 'p' :: 'o' :: 's' :: ';' :: []) =
      ['<', '>', '&', quot2, quot1] := by
  refine ⟨?_, check_no_prefix s, ?_⟩
  · intro p hp
    fin_cases hp <;>
      simp [check, checkAux, entityChars, entityDecode, containsChar, quot1, quot2]
  · decide

/-- Witness for C1: concrete successful decodings and a concrete abandoned
match (`&gt` with no trailing semicolon is restored byte-for-byte). -/
theorem c1_entity_decoder_witness :
    check '&' (['l', 't', ';'] ++ ['x']) = ('<', ['x']) ∧
    check '&' ['g', 't', 'x'] = ('&', ['g', 't', 'x']) := by
  refine ⟨?_, ?_⟩
  · exact (c1_entity_decoder ['g', 't', 'x'] ['x']).1 (['l', 't', ';'], '<') (by decide)
  · exact (c1_entity_decoder ['g', 't', 'x'] ['x']).2.1 (by decide)

/-- The XML tree node (Node.h / Node.cpp): integer type code (default
sentinel -1), name, text payload, attribute mapping and the ordered list of
owned children. The parent and next-sibling back-references are non-owning
raw pointers in the source; the parent chain is modelled separately as the
list of ancestors where a query needs it. -/
inductive Node where
  | mk (typeCode : Int) (name : String) (text : String)
       (attributes : List (String × String)) (children : List Node)

def Node.typeCode : Node → Int
  | .mk t _ _ _ _ => t

def Node.name : Node → String
  | .mk _ n _ _ _ => n

def Node.textOf : Node → String
  | .mk _ _ x _ _ => x

def Node.attributes : Node → List (String × String)
  | .mk _ _ _ a _ => a

def Node.children : Node → List Node
  | .mk _ _ _ _ c => c

/-- `Node::Node(String name)`: fresh node with the untyped sentinel. -/
def Node.ofName (name : String) : Node :=
  .mk (-1) name "" [] []

/-- `Node::text(const String&)`: assign the text payload. -/
def Node.setText : Node → String → Node
  | .mk t n _ a c, x => .mk t n x a c

/-- `Node::setTypeCode`. -/
def Node.setTypeCode : Node → Int → Node
  | .mk _ n x a c, t => .mk t n x a c

/-- `Node::addChild`: append the child to the ordered child list (the
parent/next back-references it also assigns are not part of the value
model). -/
def Node.addChild : Node → Node → Node
  | .mk t n x a c, child => .mk t n x a (c ++ [child])

/-- `Node::contains`: attribute-key membership. -/
def Node.containsAttr (n : Node) (key : String) : Bool :=
  n.attributes.any fun p => p.1 == key

/-- `Node::insert(const String&, const String&)` (Node.cpp): insert the
pair only when the key is absent; a duplicate key leaves the map as it
was. -/
def Node.insert (n : Node) (key v : String) : Node :=
  if n.containsAttr key then n
  else
    match n with
    | .mk t nm x a c => .mk t nm x (a ++ [(key, v)]) c

/-- `Node::attribute(name, def)`: lookup with caller-supplied default. -/
def Node.attribute (n : Node) (name : String) (dflt : String) : String :=
  match n.attributes.find? fun p => p.1 == name with
  | some p => p.2
  | none => dflt

/-- Modelled from the spec: `Char::equals(a, b, n)` lives in the external
Utils module (not under src/); it is the C byte comparison of two
null-terminated strings over at most `n` bytes (`strncmp(a, b, n) == 0`),
stopping early at the first differing byte — in particular at the
terminating null byte of the shorter string. -/
def charEquals : List Char → List Char → Nat → Bool
  | _, _, 0 => true
  | [], [], _ + 1 => true
  | [], _ :: _, _ + 1 => false
  | _ :: _, [], _ + 1 => false
  | a :: as, b :: bs, n + 1 => a == b && charEquals as bs n

/-- `Node::isTypeOf(const char*)` (Node.cpp): compare the node name and the
queried name over the longer of the two lengths. -/
def Node.isTypeOf (n : Node) (tagName : String) : Bool :=
  charEquals n.name.data tagName.data (max n.name.length tagName.length)

/-- `Node::isTypeOf(int64_t)` (Node.h): type-code equality. -/
def Node.isTypeOfCode (n : Node) (code : Int) : Bool :=
  n.typeCode == code

/-- `Node::firstParentOf(const String&)` (Node.cpp): the chain argument is
the walk the `_parent` pointers induce, starting with the node the method
is called on (`cur = this`), followed by its ancestors up to the root. -/
def firstParentOfName : List Node → String → Option Node
  | [], _ => none
  | cur :: rest, tag =>
    if cur.isTypeOf tag then some cur else firstParentOfName rest tag

/-- `Node::firstParentOf(const int64_t&)` (Node.cpp). -/
def firstParentOfCode : List Node → Int → Option Node
  | [], _ => none
  | cur :: rest, code =>
    if cur.isTypeOfCode code then some cur else firstParentOfCode rest code

theorem charEquals_eq_iff (a : List Char) :
    ∀ (b : List Char) (n : Nat), max a.length b.length ≤ n →
      (charEquals a b n = true ↔ a = b) := by
  induction a with
  | nil =>
    intro b n hn
    cases b with
    | nil => cases n <;> simp [charEquals]
    | cons x xs =>
      cases n with
      | zero => simp at hn
      | succ m => simp [charEquals]
  | cons c cs ih =>
    intro b n hn
    cases b with
    | nil =>
      cases n with
      | zero => simp at hn
      | succ m => simp [charEquals]
    | cons x xs =>
      cases n with
      | zero => simp at hn
      | succ m =>
        have hm : max cs.length xs.length ≤ m := by
          simp only [List.length_cons] at hn
          omega
        simp [charEquals, ih xs m hm]

/-- C6. `Node::isTypeOf(name)` returns true exactly when the node's name
and the queried name have the same length and are byte-for-byte equal:
although the comparison length is the longer of the two lengths, the byte
comparison stops at the terminating null of the shorter string, so a strict
prefix never matches. -/
theorem c6_isTypeOf_exact_equality (n : Node) (tag : String) :
    Node.isTypeOf n tag = true ↔
      (n.name.length = tag.length ∧ n.name.data = tag.data) := by
  unfold Node.isTypeOf
  rw [charEquals_eq_iff n.name.data tag.data (max n.name.length tag.length)
    (Nat.le_of_eq rfl)]
  constructor
  · intro h
    refine ⟨?_, h⟩
    show n.name.data.length = tag.data.length
    rw [h]
  · intro h
    exact h.2

/-- C8. Inserting an attribute under a key already present in the node's
attribute mapping is a no-op: the node is returned completely unchanged, so
the existing value survives and every other field is untouched. -/
theorem c8_insert_duplicate_noop (n : Node) (key v : String)
    (h : n.containsAttr key = true) :
    n.insert key v = n ∧
    (n.insert key v).attribute key "" = n.attribute key "" ∧
    (n.insert key v).attributes = n.attributes ∧
    (n.insert key v).children = n.children ∧
    (n.insert key v).textOf = n.textOf ∧
    (n.insert key v).name = n.name ∧
    (n.insert key v).typeCode = n.typeCode := by
  have he : n.insert key v = n := by
    unfold Node.insert
    rw [if_pos h]
  simp [he]

/-- Witness for C8: a concrete node with attribute x = 1; re-inserting x
with a different value changes nothing. -/
theorem c8_insert_duplicate_noop_witness :
    (Node.mk (-1) "a" "" [("x", "1")] []).insert "x" "2" =
      Node.mk (-1) "a" "" [("x", "1")] [] :=
  (c8_insert_duplicate_noop (Node.mk (-1) "a" "" [("x", "1")] []) "x" "2"
    (by decide)).1

/-- C10. Both overloads of `Node::firstParentOf` begin their test at the
node they are called on before following any parent link: whenever the
node's own name (respectively its own type code) matches the query, the
node itself is returned rather than a proper ancestor. -/
theorem c10_firstParentOf_starts_at_self (n : Node) (ancestors : List Node)
    (tag : String) (code : Int) :
    (n.isTypeOf tag = true →
      firstParentOfName (n :: ancestors) tag = some n) ∧
    (n.isTypeOfCode code = true →
      firstParentOfCode (n :: ancestors) code = some n) := by
  constructor
  · intro h
    simp [firstParentOfName, h]
  · intro h
    simp [firstParentOfCode, h]

/-- Witness for C10: a node named b with type code 7, sitting under a
parent that also matches the query, is returned itself by both searches. -/
theorem c10_firstParentOf_starts_at_self_witness :
    firstParentOfName
        (Node.mk 7 "b" "" [] [] :: [Node.mk 7 "b" "" [] []]) "b" =
      some (Node.mk 7 "b" "" [] []) ∧
    firstParentOfCode
        (Node.mk 7 "b" "" [] [] :: [Node.mk 7 "b" "" [] []]) 7 =
      some (Node.mk 7 "b" "" [] []) := by
  constructor
  · exact (c10_firstParentOf_starts_at_self (Node.mk 7 "b" "" [] [])
      [Node.mk 7 "b" "" [] []] "b" 7).1 (by decide)
  · exact (c10_firstParentOf_starts_at_self (Node.mk 7 "b" "" [] [])
      [Node.mk 7 "b" "" [] []] "b" 7).2 (by decide)

/-- The tag name → type code allow-list (`TypeFilterMap` built by
`makeTypeFilter`), modelled as an association list with unique keys looked
up by first match. -/
abbrev TypeFilterMap := List (String × Int)

/-- `_filter.find(name)`. -/
def filterFind : TypeFilterMap → String → Option Int
  | [], _ => none
  | p :: rest, name => if p.1 == name then some p.2 else filterFind rest name

/-- `File::reduceRule` (File.cpp): when more than one node is on the
construction stack, pop the top node `b`; with an empty filter attach it as
a child of the new top `a`; with a non-empty filter attach it (with the
mapped type code assigned) only when its name is found, and otherwise
delete it. With one or zero entries the stack is untouched. The stack is
modelled head-first (head = top). -/
def reduceRule (filter : TypeFilterMap) : List Node → List Node
  | b :: a :: rest =>
    if filter.isEmpty then a.addChild b :: rest
    else
      match filterFind filter b.name with
      | some code => a.addChild (b.setTypeCode code) :: rest
      | none => a :: rest
  | s => s

/-- `File::dropRule` (File.cpp): pop and delete the top node when more than
one entry is on the stack; otherwise leave the stack untouched. -/
def dropRule : List Node → List Node
  | _b :: a :: rest => a :: rest
  | s => s

/-- The clean-up loop of `File::errorMessageImpl` (File.cpp): pop and
delete the top of the construction stack while more than one entry
remains. -/
def errorCleanup : List Node → List Node
  | [] => []
  | [x] => [x]
  | _ :: b :: rest => errorCleanup (b :: rest)

/-- C4. One reduce step: with an empty filter the popped node is attached
as a child of the new top of stack; with a non-empty filter it is attached
with the mapped type code exactly when its name is a key of the filter, and
otherwise it is dropped — the resulting stack is `a :: rest` with `a`
unchanged, so the popped node and its entire subtree are absent from the
resulting tree. -/
theorem c4_reduce_filter (filter : TypeFilterMap) (b a : Node)
    (rest : List Node) :
    (filter = [] → reduceRule filter (b :: a :: rest) = a.addChild b :: rest) ∧
    (∀ code, filterFind filter b.name = some code →
      reduceRule filter (b :: a :: rest) =
        a.addChild (b.setTypeCode code) :: rest) ∧
    (filter ≠ [] → filterFind filter b.name = none →
      reduceRule filter (b :: a :: rest) = a :: rest) := by
  refine ⟨?_, ?_, ?_⟩
  · intro h
    subst h
    simp [reduceRule]
  · intro code h
    have hne : filter ≠ [] := by
      intro hcon
      subst hcon
      simp [filterFind] at h
    simp [reduceRule, List.isEmpty_iff, hne, h]
  · intro hne h
    simp [reduceRule, List.isEmpty_iff, hne, h]

/-- Witness for C4: a concrete reduce step in each of the three regimes
(empty filter, name present in the filter, name absent from the filter). -/
theorem c4_reduce_filter_witness :
    reduceRule [] (Node.ofName "b" :: Node.ofName "a" :: []) =
      ((Node.ofName "a").addChild (Node.ofName "b")) :: [] ∧
    reduceRule [("b", 5)] (Node.ofName "b" :: Node.ofName "a" :: []) =
      ((Node.ofName "a").addChild ((Node.ofName "b").setTypeCode 5)) :: [] ∧
    reduceRule [("c", 5)] (Node.ofName "b" :: Node.ofName "a" :: []) =
      Node.ofName "a" :: [] := by
  refine ⟨?_, ?_, ?_⟩
  · exact (c4_reduce_filter [] (Node.ofName "b") (Node.ofName "a") []).1 rfl
  · exact (c4_reduce_filter [("b", 5)] (Node.ofName "b")
      (Node.ofName "a") []).2.1 5 (by decide)
  · exact (c4_reduce_filter [("c", 5)] (Node.ofName "b")
      (Node.ofName "a") []).2.2 (by decide) (by decide)

/-- C9. The synthetic root is never popped: `reduceRule` and `dropRule`
leave a stack holding only the root (or nothing) unchanged, and the
error-clean-up loop frees nodes only while more than one entry remains, so
the bottom entry of a non-empty stack — the root — always survives as the
sole remaining entry. -/
theorem c9_root_survives (filter : TypeFilterMap) (root : Node)
    (s : List Node) :
    reduceRule filter [root] = [root] ∧
    dropRule [root] = [root] ∧
    reduceRule filter [] = [] ∧
    dropRule [] = [] ∧
    (s.getLast? = some root → errorCleanup s = [root]) := by
  refine ⟨rfl, rfl, rfl, rfl, ?_⟩
  intro h
  induction s with
  | nil => simp at h
  | cons x xs ih =>
    cases xs with
    | nil =>
      simp at h
      subst h
      rfl
    | cons y ys =>
      have hlast : (y :: ys).getLast? = some root := by
        simpa [List.getLast?_cons_cons] using h
      have := ih hlast
      simpa [errorCleanup] using this

/-- Witness for C9: a stack of three nodes with the root at the bottom is
drained by the error clean-up to exactly the root. -/
theorem c9_root_survives_witness :
    errorCleanup
        (Node.ofName "b" :: Node.ofName "a" :: [Node.ofName "root"]) =
      [Node.ofName "root"] :=
  (c9_root_survives [] (Node.ofName "root")
    (Node.ofName "b" :: Node.ofName "a" :: [Node.ofName "root"])).2.2.2.2
    rfl

/-- Token kinds (Token.h is not part of src/; the kinds are those the
scanner and grammar rules in src/ use). -/
inductive TokenType where
  | TOK_NULL
  | TOK_ST_TAG
  | TOK_EN_TAG
  | TOK_SLASH
  | TOK_EQUALS
  | TOK_QUESTION
  | TOK_IDENTIFIER
  | TOK_STRING
  | TOK_TEXT
  | TOK_KW_XML
  | TOK_EOF
deriving DecidableEq

/-- A scanner token: kind, side-table index and source line. -/
structure Token where
  type : TokenType
  index : Nat
  line : Nat

/-- Modelled from the spec: `isLetter` from the external Utils/Char.h is
the ASCII letter test. -/
def isLetter (ch : Char) : Bool :=
  ('a' ≤ ch && ch ≤ 'z') || ('A' ≤ ch && ch ≤ 'Z')

/-- Modelled from the spec: `isDecimal` from the external Utils/Char.h is
the ASCII digit test. -/
def isDecimal (ch : Char) : Bool :=
  '0' ≤ ch && ch ≤ '9'

/-- Modelled from the spec: `isWhiteSpace` from the external Utils/Char.h
holds for blank, tab, carriage return and newline. -/
def isWhiteSpaceC (ch : Char) : Bool :=
  ch == ' ' || ch == '\t' || ch == '\r' || ch == '\n'

/-- `isValidIdentifier` (Scanner.cpp): letters, digits, underscore and
colon. -/
def isValidIdentifier (ch : Char) : Bool :=
  isLetter ch || isDecimal ch || ch == '_' || ch == ':'

/-- `isQuote` (Scanner.cpp): either quote character. -/
def isQuoteC (ch : Char) : Bool :=
  ch == quot2 || ch == quot1

/-- The byte that `putback((char)ch)` stores when `ch` is the end-of-input
result of `get()` (-1 truncated to a byte). -/
def eofByte : Char := Char.ofNat 255

/-- The collection loop of `Scanner::scanString` (Scanner.cpp): fetch a
character, push it while it is not a quote, and fail when the fetch hits
end of input. In the source, end of input at the very first fetch enters
the loop once (pushing the truncated end-of-input byte) and errors on the
next fetch; since the error discards the buffer, that path collapses to
erroring on the empty stream. -/
def scanStringLoop (dest : List Char) : List Char →
    Except String (List Char × List Char)
  | [] => .error "unexpected end of file"
  | c :: rest =>
    if isQuoteC c then .ok (dest, rest)
    else scanStringLoop (dest ++ [c]) rest

/-- `Scanner::scanString` (Scanner.cpp): expect a quote, then collect raw
characters until the next quote character of either kind, saving the
collected text in the side table and emitting a string token. -/
def scanString (line : Nat) (code : List String) (s : List Char) :
    Except String (Token × List String × List Char) :=
  match s with
  | [] => .error "expected the quote character"
  | q :: s2 =>
    if isQuoteC q then
      match scanStringLoop [] s2 with
      | .error e => .error e
      | .ok r =>
        .ok (⟨.TOK_STRING, code.length, line⟩, code ++ [String.mk r.1], r.2)
    else .error "expected the quote character"

/-- The accumulation loop of `Scanner::scanSymbol` (Scanner.cpp): collect
characters while they are valid identifier characters, then push the
terminating character back (the truncated end-of-input byte when the
terminating fetch hit end of input). -/
def symbolLoop (acc : List Char) (ch : Char) (s : List Char) :
    List Char × List Char :=
  if isValidIdentifier ch then
    match s with
    | [] => (acc ++ [ch], [eofByte])
    | c :: rest => symbolLoop (acc ++ [ch]) c rest
  else (acc, ch :: s)

/-- `Scanner::scanSymbol` (Scanner.cpp): when the first character is a
letter, accumulate an identifier; the literal `xml` becomes the keyword
token, anything else an identifier token saved in the side table. A
non-letter first character leaves the token null (the character stays
consumed). -/
def scanSymbol (line : Nat) (code : List String) (s : List Char) :
    Token × List String × List Char :=
  match s with
  | [] => (⟨.TOK_NULL, 0, line⟩, code, [])
  | c :: rest =>
    if isLetter c then
      let r := symbolLoop [] c rest
      if String.mk r.1 == "xml" then (⟨.TOK_KW_XML, 0, line⟩, code, r.2)
      else (⟨.TOK_IDENTIFIER, code.length, line⟩, code ++ [String.mk r.1], r.2)
    else (⟨.TOK_NULL, 0, line⟩, code, rest)

/-- Modelled from the spec: `scanMultiLineComment` is declared by the
scanner but its body is not under src/ (comment-skipping is an external
behavior); following the spec's suggestion it skips greedily to the first
`-->`, or to end of input. -/
def scanComment : List Char → List Char
  | '-' :: '-' :: '>' :: rest => rest
  | _ :: rest => scanComment rest
  | [] => []

/-- Modelled from the spec: `scanWhiteSpace` (declared by the scanner base,
not under src/) skips blanks and tabs. -/
def scanWhiteSpaceSkip : List Char → List Char
  | c :: rest => if c == ' ' || c == '\t' then scanWhiteSpaceSkip rest else c :: rest
  | [] => []

/-- The content-mode accumulation loop of `Scanner::scan` (Scanner.cpp):
collect raw characters (with no entity decoding) while the current one is
not `<`, tracking whether only whitespace has been seen; on `<` the
character is pushed back, and when the fetch hits end of input the loop
breaks and the putback stores the truncated end-of-input byte. Returns the
accumulated text, the whitespace-only flag and the remaining stream. -/
def contentLoop (acc : List Char) (onlyWS : Bool) (ch : Char)
    (s : List Char) : List Char × Bool × List Char :=
  if ch == '<' then (acc, onlyWS, ch :: s)
  else
    let acc2 := acc ++ [ch]
    let ws2 := onlyWS && isWhiteSpaceC ch
    match s with
    | [] => (acc2, ws2, [eofByte])
    | c :: rest => contentLoop acc2 ws2 c rest

/-- Hexadecimal rendering of a byte for the unknown-character scan
error (`Char::toHexString`). -/
def hexDigit (n : Nat) : Char :=
  if n < 10 then Char.ofNat (48 + n) else Char.ofNat (87 + n)

/-- Two-digit hexadecimal byte string. -/
def hexByte (n : Nat) : String :=
  String.mk [hexDigit (n / 16 % 16), hexDigit (n % 16)]

/-- One call of `Scanner::scan` (Scanner.cpp): the outer character loop,
with the two scanner modes. The state threaded through is the markup-mode
flag `_defaultState`, the line counter `_line` and the side table `_code`.
Fuel bounds the outer loop; every iteration either consumes input or
switches from content mode back to markup mode. -/
def scanLoop : Nat → Bool → Nat → List String → List Char →
    Except String (Token × Bool × Nat × List String × List Char)
  | 0, _, _, _, _ => .error "scan fuel exhausted"
  | fuel + 1, dflt, line, code, s =>
    match s with
    | [] => .ok (⟨.TOK_EOF, 0, line⟩, dflt, line, code, [])
    | ch :: rest =>
      if dflt then
        if ch == '<' then
          if rest.headD ' ' == '!' then
            scanLoop fuel dflt line code (scanComment rest)
          else .ok (⟨.TOK_ST_TAG, 0, line⟩, dflt, line, code, rest)
        else if isQuoteC ch then
          match scanString line code (ch :: rest) with
          | .error e => .error e
          | .ok (tok, code2, s2) => .ok (tok, dflt, line, code2, s2)
        else if ch == '=' then .ok (⟨.TOK_EQUALS, 0, line⟩, dflt, line, code, rest)
        else if ch == '>' then .ok (⟨.TOK_EN_TAG, 0, line⟩, false, line, code, rest)
        else if ch == '/' then .ok (⟨.TOK_SLASH, 0, line⟩, dflt, line, code, rest)
        else if ch == '?' then .ok (⟨.TOK_QUESTION, 0, line⟩, dflt, line, code, rest)
        else if ch == ':' || isDecimal ch || isLetter ch then
          let r := scanSymbol line code (ch :: rest)
          .ok (r.1, dflt, line, r.2.1, r.2.2)
        else if ch == '\r' || ch == '\n' then
          let rest2 := if ch == '\r' && rest.headD ' ' == '\n' then rest.tail else rest
          scanLoop fuel dflt (line + 1) code rest2
        else if ch == ' ' || ch == '\t' then
          scanLoop fuel dflt line code (scanWhiteSpaceSkip rest)
        else .error ("unknown character parsed #x" ++ hexByte ch.toNat)
      else
        let r := contentLoop [] true ch rest
        if !(String.mk r.1).isEmpty && !r.2.1 then
          .ok (⟨.TOK_TEXT, code.length, line⟩, true, line,
            code ++ [String.mk r.1], r.2.2)
        else scanLoop fuel true line code r.2.2

/-- One `Scanner::scan` call with enough fuel for its outer loop. -/
def scan (dflt : Bool) (line : Nat) (code : List String) (s : List Char) :
    Except String (Token × Bool × Nat × List String × List Char) :=
  scanLoop (2 * s.length + 2) dflt line code s

/-- Repeated scanning into a token list, the way the external lookahead
buffer fills itself: scan until the end-of-input token appears (the source
starts in markup mode). Returns the tokens (ending with the end-of-input
token) and the final side table. -/
def tokenizeLoop : Nat → Bool → Nat → List String → List Char →
    Except String (List Token × List String)
  | 0, _, _, _, _ => .error "tokenize fuel exhausted"
  | fuel + 1, dflt, line, code, s =>
    match scan dflt line code s with
    | .error e => .error e
    | .ok (tok, dflt2, line2, code2, s2) =>
      if tok.type = .TOK_EOF then .ok ([tok], code2)
      else
        match tokenizeLoop fuel dflt2 line2 code2 s2 with
        | .error e => .error e
        | .ok (toks, code3) => .ok (tok :: toks, code3)

/-- Tokenize a whole character stream. -/
def tokenize (s : List Char) : Except String (List Token × List String) :=
  tokenizeLoop (s.length + 1) true 1 [] s

/-- The side table produced by tokenizing a string, `none` on a scan
error. -/
def sideTable (s : String) : Option (List String) :=
  match tokenize s.data with
  | .ok r => some r.2
  | .error _ => none

theorem scanStringLoop_ok (body : List Char) :
    ∀ (dest : List Char) (closeQ : Char) (rest : List Char),
      (∀ c ∈ body, isQuoteC c = false) → isQuoteC closeQ = true →
      scanStringLoop dest (body ++ closeQ :: rest) =
        .ok (dest ++ body, rest) := by
  induction body with
  | nil =>
    intro dest closeQ rest _ hq
    simp [scanStringLoop, hq]
  | cons b bs ih =>
    intro dest closeQ rest hb hq
    have hbq : isQuoteC b = false := hb b (by simp)
    have step := ih (dest ++ [b]) closeQ rest
      (fun c hc => hb c (by simp [hc])) hq
    simp only [List.cons_append, scanStringLoop, hbq, Bool.false_eq_true,
      if_false]
    simpa [List.append_assoc] using step

theorem scanStringLoop_eof (body : List Char) :
    ∀ (dest : List Char),
      (∀ c ∈ body, isQuoteC c = false) →
      scanStringLoop dest body = .error "unexpected end of file" := by
  induction body with
  | nil =>
    intro dest _
    simp [scanStringLoop]
  | cons b bs ih =>
    intro dest hb
    have hbq : isQuoteC b = false := hb b (by simp)
    have step := ih (dest ++ [b]) (fun c hc => hb c (by simp [hc]))
    simp only [scanStringLoop, hbq, Bool.false_eq_true, if_false]
    exact step

/-- C7 (amended). `Scanner::scanString` collects raw characters — with no
entity decoding, the payload is the collected body verbatim — until the
next quote character of either kind, regardless of which quote opened the
string, and raises a fatal scan error when end of input arrives before a
closing quote. -/
theorem c7_scan_string_amended (line : Nat) (code : List String)
    (openQ closeQ : Char) (body rest : List Char)
    (hoq : isQuoteC openQ = true) (hcq : isQuoteC closeQ = true)
    (hb : ∀ c ∈ body, isQuoteC c = false) :
    scanString line code (openQ :: (body ++ closeQ :: rest)) =
      .ok (⟨.TOK_STRING, code.length, line⟩, code ++ [String.mk body], rest) ∧
    scanString line code (openQ :: body) =
      .error "unexpected end of file" := by
  constructor
  · simp only [scanString, hoq, if_true]
    rw [scanStringLoop_ok body [] closeQ rest hb hcq]
    simp
  · simp only [scanString, hoq, if_true]
    rw [scanStringLoop_eof body [] hb]

/-- Witness for C7 (amended): scanning `"&lt;"` yields the literal payload
`&lt;` (proving no decoding happens inside quotes), and scanning an
unterminated `"ab` is a fatal scan error. -/
theorem c7_scan_string_amended_witness :
    scanString 3 ["z"] (quot2 :: (['&', 'l', 't', ';'] ++ quot2 :: ['<'])) =
      .ok (⟨.TOK_STRING, 1, 3⟩, ["z", String.mk ['&', 'l', 't', ';']], ['<']) ∧
    scanString 3 ["z"] (quot2 :: ['a', 'b']) =
      .error "unexpected end of file" := by
  refine ⟨?_, ?_⟩
  · exact (c7_scan_string_amended 3 ["z"] quot2 quot2 ['&', 'l', 't', ';']
      ['<'] (by decide) (by decide) (by decide)).1
  · exact (c7_scan_string_amended 3 ["z"] quot2 quot2 ['a', 'b']
      ['<'] (by decide) (by decide) (by decide)).2

/-- Counterexample for C7 as stated: a double-quoted string containing an
apostrophe. The scan stops at the apostrophe — the first quote character of
either kind — not at the matching double quote: the collected payload is
`ab`, not the `ab'cd` that collecting until the matching quote would
produce. -/
theorem c7_counterexample :
    scanString 0 [] (quot2 :: ('a' :: 'b' :: quot1 :: 'c' :: 'd' :: [quot2])) =
      .ok (⟨.TOK_STRING, 0, 0⟩, [String.mk ['a', 'b']],
        ('c' :: 'd' :: [quot2])) ∧
    String.mk ['a', 'b'] ≠ String.mk ['a', 'b', quot1, 'c', 'd'] := by
  refine ⟨rfl, by decide⟩

/-- C2 is false of the code as it stands (the claim matches the intent
witnessed by the dead entity decoder and the scanner substitution test, so
this is a code bug, not a spec bug): in content mode the scanner stores the
raw text without invoking the entity decoder, so the text token's
side-table payload for `<a>A&lt;B</a>` is the literal `A&lt;B`, although
running the entity decoder over that text would give `A<B`. -/
theorem c2_content_not_decoded :
    sideTable "<a>A&lt;B</a>" = some ["a", "A&lt;B", "a"] ∧
    decodeStream "A&lt;B".data = "A<B".data ∧
    ("A&lt;B" : String) ≠ "A<B" := by
  refine ⟨rfl, by decide, by decide⟩

/-- The grammar-engine state (File.h): the token buffer and side table the
scanner produced, the type filter, the two configured limits, the
construction stack (head = top, seeded with the synthetic root), the tag
counter, the lookahead cursor and the recursion-depth counter of the
external StackGuard. -/
structure Parser where
  tokens : List Token
  code : List String
  filter : TypeFilterMap
  maxTags : Nat
  maxDepth : Nat
  stack : List Node
  tagCount : Nat
  cursor : Nat
  depth : Nat

/-- The token the external lookahead buffer yields past the end of input. -/
def eofToken : Token := ⟨.TOK_EOF, 0, 0⟩

/-- `token(k)` of the external ParserBase: the token `k` positions past the
cursor, end-of-input past the end. -/
def tokAt (p : Parser) (k : Nat) : Token :=
  p.tokens.getD (p.cursor + k) eofToken

/-- `advanceCursor(n)`. -/
def advanceCursor (p : Parser) (n : Nat) : Parser :=
  { p with cursor := p.cursor + n }

/-- `Scanner::string(dest, idx)`: side-table lookup. -/
def strAt (p : Parser) (i : Nat) : String :=
  p.code.getD i ""

/-- `Scanner::getCode` (Scanner.cpp): side-table lookup that raises a
syntax error when the index is out of bounds. -/
def getCode (p : Parser) (i : Nat) : Except String String :=
  if h : i < p.code.length then .ok (p.code.get ⟨i, h⟩)
  else .error "code index out of bounds"

/-- Modelled from the spec: the external StackGuard's enter operation
increments the depth counter and fails past the configured maximum; every
grammar rule calls it on entry, and the parse loop resets the counter per
top-level object. -/
def depthGuard (p : Parser) : Except String Parser :=
  if p.maxDepth < p.depth + 1 then .error "maximum recursion depth exceeded"
  else .ok { p with depth := p.depth + 1 }

/-- `File::createTag` (File.cpp): increment the tag counter, fail when it
passes the configured maximum, otherwise push a fresh node. -/
def createTag (p : Parser) (name : String) : Except String Parser :=
  if p.maxTags < p.tagCount + 1 then .error "maximum tag limit exceeded"
  else .ok { p with tagCount := p.tagCount + 1,
                    stack := Node.ofName name :: p.stack }

/-- `File::ruleAttribute` (File.cpp). -/
def ruleAttribute (p : Parser) : Except String Parser := do
  let p ← depthGuard p
  if (tokAt p 0).type ≠ .TOK_IDENTIFIER then .error "expected an identifier"
  else if (tokAt p 1).type ≠ .TOK_EQUALS then .error "expected an equals sign"
  else if (tokAt p 2).type ≠ .TOK_STRING then .error "expected an equals sign"
  else
    match p.stack with
    | [] => .error "empty stack"
    | node :: rest =>
      let identifier := strAt p (tokAt p 0).index
      if node.containsAttr identifier then
        .error (node.name ++ " duplicate attribute " ++ identifier)
      else
        let value := strAt p (tokAt p 2).index
        .ok (advanceCursor
          { p with stack := node.insert identifier value :: rest } 3)

/-- The do-while loop of `File::ruleAttributeList` (File.cpp), with fuel
bounding the iteration count (each iteration advances the cursor by three,
so the token count bounds the iterations). -/
def ruleAttributeListLoop : Nat → Parser → Except String Parser
  | 0, _ => .error "attribute loop fuel exhausted"
  | fuel + 1, p => do
    let p2 ← ruleAttribute p
    let t0 := (tokAt p2 0).type
    if t0 = .TOK_EOF then .error "unexpected end of file"
    else if t0 ≠ .TOK_EN_TAG ∧ t0 ≠ .TOK_SLASH then
      ruleAttributeListLoop fuel p2
    else .ok p2

/-- `File::ruleAttributeList` (File.cpp). -/
def ruleAttributeList (p : Parser) : Except String Parser := do
  let p ← depthGuard p
  let t0 := (tokAt p 0).type
  if t0 ≠ .TOK_EN_TAG ∧ t0 ≠ .TOK_SLASH then
    ruleAttributeListLoop (p.tokens.length + 1) p
  else .ok p

/-- `File::ruleStartTag` (File.cpp). -/
def ruleStartTag (p : Parser) : Except String Parser := do
  let p ← depthGuard p
  if (tokAt p 0).type ≠ .TOK_ST_TAG then .error "expected the < character"
  else if (tokAt p 1).type ≠ .TOK_IDENTIFIER then
    .error "expected a tag identifier"
  else
    let value := strAt p (tokAt p 1).index
    if value.isEmpty then .error "empty tag name"
    else do
      let p ← createTag (advanceCursor p 2) value
      let p ← ruleAttributeList p
      let et0 := (tokAt p 0).type
      if et0 = .TOK_SLASH then
        if (tokAt p 1).type ≠ .TOK_EN_TAG then .error "expected the > character"
        else .ok (advanceCursor { p with stack := reduceRule p.filter p.stack } 2)
      else if et0 ≠ .TOK_EN_TAG then .error "expected the > character"
      else .ok (advanceCursor p 1)

/-- `File::ruleContent` (File.cpp): set the text of the currently open
parent, then create a synthetic `_text_node` child carrying the same text
and immediately reduce it. -/
def ruleContent (p : Parser) : Except String Parser := do
  let p ← depthGuard p
  let t0 := tokAt p 0
  if t0.type ≠ .TOK_TEXT then .error "expected content text"
  else do
    let content ← getCode p t0.index
    if content.isEmpty then .error "unexpected empty content token"
    else
      match p.stack with
      | [] => .error "empty stack"
      | topN :: rest => do
        let p ← createTag { p with stack := topN.setText content :: rest }
          "_text_node"
        let p := match p.stack with
          | n :: r => { p with stack := n.setText content :: r }
          | [] => p
        .ok (advanceCursor { p with stack := reduceRule p.filter p.stack } 1)

/-- `File::ruleEndTag` (File.cpp). -/
def ruleEndTag (p : Parser) : Except String Parser := do
  let p ← depthGuard p
  if (tokAt p 0).type ≠ .TOK_ST_TAG then .error "expected the < character"
  else if (tokAt p 1).type ≠ .TOK_SLASH then .error "expected the / character"
  else if (tokAt p 2).type ≠ .TOK_IDENTIFIER then
    .error "expected a tag identifier"
  else if (tokAt p 3).type ≠ .TOK_EN_TAG then .error "expected the > character"
  else
    let identifier := strAt p (tokAt p 2).index
    match p.stack with
    | [] => .error "empty stack"
    | topN :: _ =>
      if identifier ≠ topN.name then
        .error ("closing tag mis-match between " ++ topN.name ++
          " and " ++ identifier)
      else if identifier.isEmpty then .error "empty closing tag"
      else
        let p := advanceCursor p 4
        .ok { p with stack := reduceRule p.filter p.stack }

/-- `File::ruleObject` (File.cpp). -/
def ruleObject (p : Parser) : Except String Parser := do
  let p ← depthGuard p
  let t0 := (tokAt p 0).type
  let t1 := (tokAt p 1).type
  let t2 := (tokAt p 2).type
  if t0 = .TOK_ST_TAG ∧ t1 = .TOK_IDENTIFIER then ruleStartTag p
  else if t0 = .TOK_ST_TAG ∧ t1 = .TOK_SLASH ∧ t2 = .TOK_IDENTIFIER then
    ruleEndTag p
  else ruleContent p

/-- The attribute loop of `File::ruleXmlRoot` (File.cpp). -/
def ruleXmlRootLoop : Nat → Parser → Except String Parser
  | 0, _ => .error "prolog loop fuel exhausted"
  | fuel + 1, p =>
    if (tokAt p 0).type ≠ .TOK_QUESTION then do
      let p2 ← ruleAttribute p
      if (tokAt p2 0).type = .TOK_EOF then .error "unexpected end of file"
      else ruleXmlRootLoop fuel p2
    else .ok p

/-- `File::ruleXmlRoot` (File.cpp). -/
def ruleXmlRoot (p : Parser) : Except String Parser := do
  let p ← depthGuard p
  if (tokAt p 0).type ≠ .TOK_ST_TAG then .error "expected the < character"
  else if (tokAt p 1).type ≠ .TOK_QUESTION then .error "expected the / character"
  else if (tokAt p 2).type ≠ .TOK_KW_XML then .error "expected the xml keyword"
  else do
    let p ← ruleXmlRootLoop (p.tokens.length + 1) (advanceCursor p 3)
    let p := advanceCursor p 1
    if (tokAt p 0).type ≠ .TOK_EN_TAG then .error "unexpected token"
    else .ok (advanceCursor p 1)

/-- `File::ruleObjectList` (File.cpp): the prolog is parsed into an ad-hoc
`xml` node that is dropped rather than retained. -/
def ruleObjectList (p : Parser) : Except String Parser := do
  let p ← depthGuard p
  let t0 := (tokAt p 0).type
  let t1 := (tokAt p 1).type
  if t1 = .TOK_QUESTION then do
    let p ← createTag p "xml"
    let p ← ruleXmlRoot p
    .ok { p with stack := dropRule p.stack }
  else if t0 = .TOK_ST_TAG ∨ t0 = .TOK_TEXT then ruleObject p
  else .error "unknown token parsed 0x"

/-- The driving loop of `File::parseImpl` (File.cpp): repeat the top-level
rule until the end-of-input token or until the cursor passes the token
count, resetting the depth guard per iteration and forcing the cursor
forward when a rule did not advance it. Fuel bounds the iterations (the
cursor strictly increases every iteration). -/
def parseLoop : Nat → Parser → Except String Parser
  | 0, _ => .error "parse loop fuel exhausted"
  | fuel + 1, p =>
    if p.tokens.length < p.cursor then .ok p
    else if (tokAt p 0).type = .TOK_EOF then .ok p
    else do
      let q ← ruleObjectList { p with depth := 0 }
      let q := if q.cursor = p.cursor then advanceCursor q 1 else q
      parseLoop fuel q

/-- `Clamp(maxDepth, MinParseDepth, MaxParseDepth)` from the File
constructor: the depth limit is clamped into [0, 64]. -/
def clampDepth (d : Nat) : Nat := min d 64

/-- `File::parseImpl` preceded by construction and scanning: tokenize the
input, seed the construction stack with the synthetic root node, set the
tag counter to one (the root counts as the first tag) and run the driving
loop. -/
def parseDoc (filter : TypeFilterMap) (maxTags maxDepth : Nat)
    (input : String) : Except String Parser :=
  match tokenize input.data with
  | .error e => .error e
  | .ok (toks, code) =>
    parseLoop (toks.length + 2)
      ⟨toks, code, filter, maxTags, clampDepth maxDepth,
        [Node.mk (-1) "" "" [] []], 1, 0, 0⟩

/-- The construction stack a successful parse leaves behind (`none` on a
parse error). -/
def parsedStack (filter : TypeFilterMap) (maxTags maxDepth : Nat)
    (input : String) : Option (List Node) :=
  match parseDoc filter maxTags maxDepth input with
  | .ok p => some p.stack
  | .error _ => none

/-- The error message a failed parse raises (`none` on success). -/
def parsedError (filter : TypeFilterMap) (maxTags maxDepth : Nat)
    (input : String) : Option String :=
  match parseDoc filter maxTags maxDepth input with
  | .ok _ => none
  | .error e => some e

/-- The document of the NodeParseStructure test. -/
def exampleDoc : String := "<root><foo>A<b>B</b>C</foo></root>"

/-- The tree that parsing `exampleDoc` must build: under the synthetic
root, `root` → `foo` with text C (the last text run wins) and children
[_text_node A, b, _text_node C], and `b` with text B and child
[_text_node B]. -/
def exampleTree : Node :=
  Node.mk (-1) "" "" []
    [Node.mk (-1) "root" "" []
      [Node.mk (-1) "foo" "C" []
        [Node.mk (-1) "_text_node" "A" [] [],
         Node.mk (-1) "b" "B" [] [Node.mk (-1) "_text_node" "B" [] []],
         Node.mk (-1) "_text_node" "C" [] []]]]

/-- C3. `File::ruleContent` on any state whose next token is a non-empty
text token (with an empty filter) sets the text payload of the currently
open parent node — so after several runs the parent text equals the last
run — and appends a synthetic `_text_node` child carrying the same text;
and parsing `<root><foo>A<b>B</b>C</foo></root>` yields `foo` with
children [_text_node A, b, _text_node C] and `b` with child
[_text_node B], preserving source order. -/
theorem c3_text_rule (toks : List Token) (code : List String)
    (maxTags maxDepth : Nat) (t a : Node) (rest : List Node)
    (tagCount cursor depth : Nat) (content : String)
    (htok : (toks.getD cursor eofToken).type = .TOK_TEXT)
    (hcode : getCode
        (Parser.mk toks code [] maxTags maxDepth (t :: a :: rest)
          tagCount cursor depth)
        (toks.getD cursor eofToken).index = .ok content)
    (hne : content.isEmpty = false)
    (hdepth : depth < maxDepth) (htags : tagCount < maxTags) :
    ruleContent
        (Parser.mk toks code [] maxTags maxDepth (t :: a :: rest)
          tagCount cursor depth) =
      .ok (Parser.mk toks code [] maxTags maxDepth
        ((t.setText content).addChild
            (Node.mk (-1) "_text_node" content [] []) :: a :: rest)
        (tagCount + 1) (cursor + 1) (depth + 1)) ∧
    parsedStack [] 1024 16 exampleDoc = some [exampleTree] := by
  constructor
  · unfold ruleContent depthGuard
    rw [if_neg (by simp; omega)]
    simp only [Bind.bind, Except.bind]
    have htok2 : (tokAt (Parser.mk toks code [] maxTags maxDepth
        (t :: a :: rest) tagCount cursor (depth + 1)) 0).type = .TOK_TEXT := by
      simpa [tokAt] using htok
    rw [if_neg (by simp [htok2])]
    have hcode2 : getCode (Parser.mk toks code [] maxTags maxDepth
        (t :: a :: rest) tagCount cursor (depth + 1))
        (tokAt (Parser.mk toks code [] maxTags maxDepth (t :: a :: rest)
          tagCount cursor (depth + 1)) 0).index = .ok content := by
      simpa [tokAt, getCode] using hcode
    rw [hcode2]
    simp only [Except.bind]
    rw [if_neg (by simp [hne])]
    unfold createTag
    rw [if_neg (by simp; omega)]
    simp [reduceRule, advanceCursor, Node.ofName, Node.setText,
      Node.addChild]
  · rfl

/-- Witness for C3: one text-rule step on a concrete two-node stack. -/
theorem c3_text_rule_witness :
    ruleContent
        (Parser.mk [⟨.TOK_TEXT, 0, 1⟩] ["A"] [] 10 16
          (Node.ofName "b" :: Node.ofName "a" :: []) 2 0 0) =
      .ok (Parser.mk [⟨.TOK_TEXT, 0, 1⟩] ["A"] [] 10 16
        (((Node.ofName "b").setText "A").addChild
            (Node.mk (-1) "_text_node" "A" [] []) :: Node.ofName "a" :: [])
        3 1 1) :=
  (c3_text_rule [⟨.TOK_TEXT, 0, 1⟩] ["A"] 10 16 (Node.ofName "b")
    (Node.ofName "a") [] 2 0 0 "A" rfl rfl rfl (by omega) (by omega)).1

/-- C5. `File::createTag` fails with the resource-limit error exactly when
the incremented tag counter passes the configured maximum, and succeeds
(pushing the new node) otherwise. The counter starts at one for the
synthetic root, so a document needing a total of n tags (root included)
parses with the maximum set to n and fails at the moment the limit is
crossed with the maximum set to n - 1: the example document needs 7 tags
(root, root tag, foo, three _text_node tags and b). -/
theorem c5_tag_limit (p : Parser) (name : String) :
    (p.maxTags < p.tagCount + 1 →
      createTag p name = .error "maximum tag limit exceeded") ∧
    (p.tagCount + 1 ≤ p.maxTags →
      createTag p name =
        .ok { p with tagCount := p.tagCount + 1, stack := Node.ofName name :: p.stack }) ∧
    parsedError [] 6 16 exampleDoc = some "maximum tag limit exceeded" ∧
    parsedError [] 7 16 exampleDoc = none ∧
    parsedStack [] 7 16 exampleDoc = some [exampleTree] := by
  refine ⟨?_, ?_, rfl, rfl, rfl⟩
  · intro h
    unfold createTag
    rw [if_pos h]
  · intro h
    unfold createTag
    rw [if_neg (by omega)]

/-- Witness for C5: at a counter of 6 with a maximum of 6 the next creation
fails; with a maximum of 7 it succeeds. -/
theorem c5_tag_limit_witness :
    createTag (Parser.mk [] [] [] 6 16 [] 6 0 0) "x" =
      .error "maximum tag limit exceeded" ∧
    createTag (Parser.mk [] [] [] 7 16 [] 6 0 0) "x" =
      .ok (Parser.mk [] [] [] 7 16 [Node.ofName "x"] 7 0 0) := by
  constructor
  · exact (c5_tag_limit (Parser.mk [] [] [] 6 16 [] 6 0 0) "x").1 (by decide)
  · exact (c5_tag_limit (Parser.mk [] [] [] 7 16 [] 6 0 0) "x").2.1 (by decide)

end Xml
